import Mathlib

/-!
# Verification of the LLMOps RAG pipeline (multi_doc_chat)

Shallow embedding of the retrieval pipeline of the repository
`LLMOps-RAG_solution_HS_spaces`:

* `chunk_text`               (src/multi_doc_chat/utils/document_ops.py and src/main.py)
* `ModelLoader.embed/search/chat/answer_from_rag` (src/multi_doc_chat/model_loader.py)
* `RAGService.ingest_documents/query/save_index/load_index` (src/multi_doc_chat/rag_service.py)

Modelling conventions:

* Python `str` is Lean `String`; character-level operations work on `String.data`.
* Embedding vectors are `List Int` (the claims under study are about counts,
  index ranges and control flow, never about floating-point values, so an exact
  numeric carrier is a faithful carrier for them).
* The FAISS `IndexFlatL2` is its list of stored vectors; `add` is append and
  `search` is exact k-nearest-neighbour by squared L2 distance, ascending,
  ties broken by insertion order, with missing slots filled by `-1`
  (the documented FAISS behaviour when `k > ntotal`).
* `faiss.write_index` / `faiss.read_index` round-trip byte-exactly (external
  FAISS contract), so the persisted index is modelled as the index itself.
* Fallible Python code (raise) is `Except String`.
-/

namespace MultiDocChat

/-! ## Python string primitives -/

/-- The characters Python `str.strip()` removes: exactly those with
`str.isspace()` true -- the ASCII whitespace (space, tab, newline, carriage
return, vertical tab, form feed), the separator controls `\x1c`-`\x1f`,
next line `\x85`, no-break space `\xa0`, ogham space mark ` `, the
` `-` ` space family, line separator ` `, paragraph
separator ` `, narrow no-break space ` `, medium mathematical
space ` ` and ideographic space `　`. -/
def pyIsWS (c : Char) : Bool :=
  c = ' ' || c = '\t' || c = '\n' || c = '\r' || c = '\x0b' || c = '\x0c' ||
    c = '\x1c' || c = '\x1d' || c = '\x1e' || c = '\x1f' ||
    c = '\x85' || c = '\xa0' || c = ' ' ||
    (0x2000 <= c.toNat && c.toNat <= 0x200A) ||
    c = ' ' || c = ' ' || c = ' ' || c = ' ' || c = '　'

/-- Python `s.strip()` on a character list: drop whitespace from both ends. -/
def pyStrip (s : List Char) : List Char :=
  ((s.dropWhile pyIsWS).reverse.dropWhile pyIsWS).reverse

/-- Python `s.replace("\n", " ")`: both pattern and replacement are single
characters, so this is a character map. -/
def replaceNL (s : List Char) : List Char :=
  s.map (fun c => if c = '\n' then ' ' else c)

/-- Model of the universal-newlines translation Python's default text-mode
reading applies before any line splitting: a `"\r\n"` pair and a lone
`'\r'` each become `'\n'`. (Text-mode *writing* with the default
`newline=None` translates `'\n'` to `os.linesep`, which is `"\n"` itself on
the Linux platforms this service deploys to, so the write side is the
identity and only the read side translates.) -/
def uniNewlines : List Char → List Char
  | [] => []
  | '\r' :: '\n' :: rest => '\n' :: uniNewlines rest
  | '\r' :: rest => '\n' :: uniNewlines rest
  | c :: rest => c :: uniNewlines rest

/-- Line splitting of `f.readlines()` after the universal-newlines
translation has already been applied: lines end at `'\n'`, with the
trailing `'\n'` that Python keeps on each line already removed (every
caller in the source immediately applies `.strip()`, which removes it).
An empty input gives no lines. -/
def splitLinesGo (acc : List Char) : List Char → List (List Char)
  | [] => if acc.isEmpty then [] else [acc.reverse]
  | c :: rest =>
      if c = '\n' then acc.reverse :: splitLinesGo [] rest
      else splitLinesGo (c :: acc) rest

/-- Python `f.readlines()` over a file's raw contents: universal-newlines
translation (`"\r\n"` and lone `'\r'` become `'\n'`), then splitting at
`'\n'`. -/
def splitLines (s : List Char) : List (List Char) :=
  splitLinesGo [] (uniNewlines s)

/-- Python index normalization for subscription: a negative index counts
from the end of a sequence of length `len`. -/
def pyNormIdx (len : Nat) (i : Int) : Int :=
  if i < 0 then i + len else i

/-- Python list subscription `l[i]` with an `int` index: negative indices
count from the end; out-of-range raises `IndexError`. -/
def pyGetItem (l : List String) (i : Int) : Except String String :=
  if h : 0 ≤ pyNormIdx l.length i ∧ pyNormIdx l.length i < l.length then
    .ok (l.get ⟨(pyNormIdx l.length i).toNat, by omega⟩)
  else
    .error "IndexError"

/-! ## Chunker

`chunk_text` (identical in src/multi_doc_chat/utils/document_ops.py lines
26-37 and src/main.py lines 117-132):

```python
def chunk_text(text, chunk_size=1000, overlap=200):
    if not text:
        return []
    chunks = []
    start = 0
    L = len(text)
    while start < L:
        end = start + chunk_size
        chunk = text[start:end]
        chunks.append(chunk)
        start = max(end - overlap, end)
    return chunks
```

The loop is modelled on the remaining suffix of the text: slicing
`text[start:end]` is `take chunk_size` of the suffix and the advance
`start = max(end - overlap, end)` drops `max (chunk_size - overlap) chunk_size`
characters (subtracting `start` from both arguments of the `max`; Nat
truncated subtraction agrees with Python ints here because `max` picks the
second argument whenever the first would go negative). A fuel argument
bounds the recursion; fuel `text.length` is enough for every `chunk_size > 0`
since each iteration consumes at least one character. For `chunk_size = 0`
the Python loop does not terminate; the claims only concern
`chunk_size > 0`. -/

def chunkTextGo (chunkSize overlap : Nat) : Nat → List Char → List (List Char)
  | _, [] => []
  | 0, _ => []
  | fuel + 1, l =>
      l.take chunkSize ::
        chunkTextGo chunkSize overlap fuel (l.drop (max (chunkSize - overlap) chunkSize))

def chunk_text (text : String) (chunkSize overlap : Nat) : List String :=
  if text.data.isEmpty then []
  else (chunkTextGo chunkSize overlap text.data.length text.data).map String.mk

/-- Modelled from the spec: the chunking behaviour §4.1 states —
"produces consecutive windows of length `size` starting at offsets
`0, size-overlap, 2*(size-overlap), ...` until the text is exhausted."
The step between consecutive window starts is `size - overlap`. -/
def chunkSpecGo (chunkSize step : Nat) : Nat → List Char → List (List Char)
  | _, [] => []
  | 0, _ => []
  | fuel + 1, l =>
      l.take chunkSize :: chunkSpecGo chunkSize step fuel (l.drop step)

/-- Modelled from the spec (§4.1): windows of length `chunkSize` at offsets
`0, chunkSize-overlap, 2*(chunkSize-overlap), ...`. -/
def chunkSpec (text : String) (chunkSize overlap : Nat) : List String :=
  if text.data.isEmpty then []
  else (chunkSpecGo chunkSize (chunkSize - overlap) text.data.length text.data).map String.mk

/-! ## FAISS `IndexFlatL2` model

The index is the list of stored vectors; `ntotal` is its length.
`search(q, k)` returns one row of `k` indices: the `min k ntotal` exact
nearest neighbours by squared L2 distance (ascending, ties broken by
insertion order — FAISS's deterministic behaviour for `IndexFlatL2`),
padded to length `k` with `-1`, FAISS's marker for missing neighbours
when `k > ntotal`. -/

/-- Squared L2 distance between two vectors. -/
def sqDist (u v : List Int) : Int :=
  ((u.zip v).map (fun p => (p.1 - p.2) ^ 2)).sum

/-- The neighbour ordering used by `IndexFlatL2`: ascending distance to the
query, ties broken by insertion order. -/
def faissLe (vecs : List (List Int)) (q : List Int) (i j : Nat) : Prop :=
  sqDist q (vecs.getD i []) < sqDist q (vecs.getD j []) ∨
    (sqDist q (vecs.getD i []) = sqDist q (vecs.getD j []) ∧ i ≤ j)

instance (vecs : List (List Int)) (q : List Int) : DecidableRel (faissLe vecs q) :=
  fun i j => by unfold faissLe; infer_instance

/-- Model of `index.search(q, k)`: the single row `indices[0]` of the returned index
matrix (the distances row plays no role in any claim). -/
def faissSearch (vecs : List (List Int)) (q : List Int) (k : Nat) : List Int :=
  let order := List.insertionSort (faissLe vecs q) (List.range vecs.length)
  (order.take k).map (fun i => Int.ofNat i) ++ List.replicate (k - min k vecs.length) (-1)

/-! ## The service state

`ModelLoader.__init__` sets up `llm`, `embedder`, `index`, `documents`;
`RAGService` aliases the loader's `documents` list and owns the FAISS
directory with its two files `index.bin` and `docs.txt`.  The two on-disk
files are the `savedIndex`/`savedDocs` fields (`faiss.write_index` /
`faiss.read_index` round-trip byte-exactly, so the persisted index is
stored as the index value itself; `docs.txt` is stored as its character
contents). An absent file is `none`. -/

structure RAGState where
  llm : Option (String → Nat → String)
  embedder : Option (String → List Int)
  index : Option (List (List Int))
  documents : List String
  savedIndex : Option (List (List Int))
  savedDocs : Option (List Char)

/-- Size `index.ntotal` of the index (0 when no index exists). -/
def ntotal (st : RAGState) : Nat :=
  (st.index.getD []).length

namespace ModelLoader

/-- Model of `ModelLoader.embed` (model_loader.py lines 135-138): raises when the
embedding backend is missing, otherwise one vector per text (the
Embedding Provider contract: output shape `(n, d)`). -/
def embed (st : RAGState) (texts : List String) : Except String (List (List Int)) :=
  match st.embedder with
  | none => .error "Embedding model missing."
  | some E => .ok (texts.map E)

/-- The default of `ModelLoader.search`'s `top_k` parameter. -/
def searchDefaultTopK : Nat := 3

/-- The result-collection loop of `ModelLoader.search` (lines 150-153):

```python
results = []
for idx in indices[0]:
    if idx < len(self.documents):
        results.append(self.documents[idx])
```

`idx` is a (signed) integer from FAISS; the guard compares it with
`len(self.documents)` and the subscription uses Python semantics
(negative indices count from the end). -/
def searchGather (documents : List String) : List Int → Except String (List String)
  | [] => .ok []
  | idx :: rest =>
      if idx < (documents.length : Int) then
        match pyGetItem documents idx with
        | .error e => .error e
        | .ok d =>
            match searchGather documents rest with
            | .error e => .error e
            | .ok r => .ok (d :: r)
      else
        searchGather documents rest

/-- Model of `ModelLoader.search` (model_loader.py lines 143-155). The guard
`if not self.index` is true exactly when `self.index is None`: a FAISS
index object defines neither `__bool__` nor `__len__`, so a present index
is always truthy. -/
def search (st : RAGState) (query : String) (top_k : Nat) : Except String (List String) :=
  if st.index.isNone then .ok []
  else
    match embed st [query] with
    | .error e => .error e
    | .ok qvs => searchGather st.documents (faissSearch (st.index.getD []) (qvs.headD []) top_k)

/-- The string `ModelLoader.chat` returns when no local LLM is loaded. -/
def llmMissingMsg : String := "[Local LLM missing — place a .gguf/.bin model in /models/]"

/-- Model of `ModelLoader.chat` (lines 160-170): placeholder when the LLM is absent,
otherwise the backend's generated text. -/
def chat (st : RAGState) (prompt : String) (maxTokens : Nat) : String :=
  match st.llm with
  | none => llmMissingMsg
  | some f => f prompt maxTokens

/-- The prompt template of `ModelLoader.answer_from_rag` (lines 180-185). -/
def buildPrompt (contextText query : String) : String :=
  "You are a helpful assistant using retrieved context.\n\n" ++
    "CONTEXT:\n" ++ contextText ++ "\n\n" ++
    "QUESTION: " ++ query ++ "\n\n" ++
    "ANSWER:"

/-- Model of `ModelLoader.answer_from_rag` (lines 175-187): retrieval with the
*default* `top_k` (the call `self.search(query)` passes none), then
`"\n".join(context_chunks)`, then generation. -/
def answer_from_rag (st : RAGState) (query : String) (maxTokens : Nat) :
    Except String String :=
  match search st query searchDefaultTopK with
  | .error e => .error e
  | .ok contextChunks =>
      .ok (chat st (buildPrompt (String.intercalate "\n" contextChunks) query) maxTokens)

end ModelLoader

namespace RAGService

/-- The contents written to `docs.txt` by `RAGService._save_index`
(rag_service.py lines 94-96): `f.write(d.replace("\n", " ") + "\n")`
for each stored document. -/
def formatDocs (documents : List String) : List Char :=
  (documents.map (fun d => replaceNL d.data ++ ['\n'])).flatten

/-- The parse of `docs.txt` performed by `RAGService.load_index`
(line 114): `[line.strip() for line in f.readlines()]`. -/
def parseDocs (contents : List Char) : List String :=
  (splitLines contents).map (fun l => String.mk (pyStrip l))

/-- Model of `RAGService._save_index` (rag_service.py lines 80-96): a no-op when no
index exists, otherwise writes `index.bin` and `docs.txt`. -/
def save_index (st : RAGState) : RAGState :=
  if st.index.isNone then st
  else { st with savedIndex := st.index, savedDocs := some (formatDocs st.documents) }

/-- Model of `RAGService.load_index` (rag_service.py lines 98-114): returns untouched
when `index.bin` does not exist; otherwise loads the index, and the
documents too when `docs.txt` exists. -/
def load_index (st : RAGState) : RAGState :=
  match st.savedIndex with
  | none => st
  | some idx =>
      { st with
        index := some idx
        documents :=
          match st.savedDocs with
          | none => st.documents
          | some contents => parseDocs contents }

/-- Model of `RAGService.ingest_documents` (rag_service.py lines 41-66).  The error
value carries the state as mutated before the raise (`self.documents` is
extended *before* the embedder check).  On success the FAISS index is
created on first use (`IndexFlatL2(dim)` for an absent index is the empty
vector list), extended with one embedding per text, and both files are
persisted via `_save_index`. -/
def ingest_documents (st : RAGState) (texts : List String) :
    Except (String × RAGState) RAGState :=
  if texts.isEmpty then .ok st
  else
    let st1 := { st with documents := st.documents ++ texts }
    match st1.embedder with
    | none => .error ("Embedding model not loaded.", st1)
    | some E =>
        let embeddings := texts.map E
        let st2 := { st1 with index := some (st1.index.getD [] ++ embeddings) }
        .ok (save_index st2)

/-- Model of `RAGService.query` (rag_service.py lines 71-75): the body is exactly
`return self.loader.answer_from_rag(question, max_tokens=max_tokens)` —
the `top_k` parameter does not appear in it. -/
def query (st : RAGState) (question : String) (topK : Nat) (maxTokens : Nat) :
    Except String String :=
  ModelLoader.answer_from_rag st question maxTokens

/-- Modelled from the spec (§4.4): "embed the question; search Vector Index
for `top_k` nearest chunks; ... join retrieved texts ...; assemble a
fixed-template prompt" — i.e. the query pipeline with the *caller's*
`top_k` forwarded to the search. -/
def querySpec (st : RAGState) (question : String) (topK : Nat) (maxTokens : Nat) :
    Except String String :=
  match ModelLoader.search st question topK with
  | .error e => .error e
  | .ok contextChunks =>
      .ok (ModelLoader.chat st
        (ModelLoader.buildPrompt (String.intercalate "\n" contextChunks) question) maxTokens)

end RAGService

/-! ## Concrete states used by witnesses and counterexamples

Each is a service state reachable through `ModelLoader.__init__` plus the
pipeline's own operations, with concrete stand-ins for the external
backends (an echo LLM, a constant embedder). -/

/-- State with one ingested document and a one-vector index, `k = 2 > n = 1`
exercises the FAISS `-1` padding. -/
def stC2cex : RAGState :=
  { llm := none, embedder := some (fun _ => [0]), index := some [[0]],
    documents := ["a"], savedIndex := none, savedDocs := none }

/-- Aligned three-document state for the amended search bound. -/
def stC2w : RAGState :=
  { llm := none, embedder := some (fun _ => [5]), index := some [[0], [1]],
    documents := ["x", "y"], savedIndex := none, savedDocs := none }

/-- Fresh service with an embedder only (as after `__init__` with no model
files and no persisted index). -/
def stC1w : RAGState :=
  { llm := none, embedder := some (fun _ => [7]), index := none,
    documents := [], savedIndex := none, savedDocs := none }

/-- State whose single stored document contains an embedded newline. -/
def stC4cex : RAGState :=
  { llm := none, embedder := none, index := some [[0]],
    documents := ["a\nb"], savedIndex := none, savedDocs := none }

/-- State whose single stored document contains a carriage return. -/
def stC4cr : RAGState :=
  { llm := none, embedder := none, index := some [[0]],
    documents := ["x\ry"], savedIndex := none, savedDocs := none }

/-- State whose documents are newline-free and already stripped. -/
def stC4w : RAGState :=
  { llm := none, embedder := none, index := some [[0]],
    documents := ["ok"], savedIndex := none, savedDocs := none }

/-- Three aligned documents, echo LLM: the generated answer is the prompt
itself, making the assembled prompt observable. -/
def stC5cex : RAGState :=
  { llm := some (fun p _ => p), embedder := some (fun _ => [0]),
    index := some [[0], [1], [2]], documents := ["a", "b", "c"],
    savedIndex := none, savedDocs := none }

/-- Three aligned documents, echo LLM (separate state for the prompt-shape
counterexample). -/
def stC6cex : RAGState :=
  { llm := some (fun p _ => p), embedder := some (fun _ => [0]),
    index := some [[0], [1], [2]], documents := ["a", "b", "c"],
    savedIndex := none, savedDocs := none }

/-- State with an echo LLM and no index. -/
def stC6w : RAGState :=
  { llm := some (fun p _ => p), embedder := none, index := none,
    documents := [], savedIndex := none, savedDocs := none }

/-- State with no backends at all and no index. -/
def stC7w : RAGState :=
  { llm := none, embedder := none, index := none,
    documents := [], savedIndex := none, savedDocs := none }

/-- State with a present index but no embedding backend. -/
def stC8cex : RAGState :=
  { llm := some (fun p _ => p), embedder := none, index := some [[0]],
    documents := ["a"], savedIndex := none, savedDocs := none }

/-- State with an embedder and index but no generation backend. -/
def stC8w : RAGState :=
  { llm := none, embedder := some (fun _ => [0]), index := some [[0]],
    documents := ["a"], savedIndex := none, savedDocs := none }

/-- State with no embedding backend but existing documents, index and
persisted files. -/
def stC9w : RAGState :=
  { llm := none, embedder := none, index := some [[0]],
    documents := ["a"], savedIndex := some [[0]], savedDocs := some ['a', '\n'] }

/-! ## Helper lemmas -/

theorem max_sub_eq (s o : Nat) : max (s - o) s = s :=
  Nat.max_eq_right (Nat.sub_le s o)

theorem chunkTextGo_eq_spec (s o : Nat) :
    ∀ (fuel : Nat) (l : List Char), chunkTextGo s o fuel l = chunkSpecGo s s fuel l := by
  intro fuel
  induction fuel with
  | zero => intro l; cases l <;> rfl
  | succ n ih =>
      intro l
      cases l with
      | nil => rfl
      | cons c cs =>
          show (c :: cs).take s :: chunkTextGo s o n ((c :: cs).drop (max (s - o) s)) =
            (c :: cs).take s :: chunkSpecGo s s n ((c :: cs).drop s)
          rw [max_sub_eq, ih]

theorem pyNormIdx_bounds {len : Nat} {i : Int} (h1 : -1 ≤ i) (h2 : i < (len : Int))
    (h3 : 1 ≤ len) : 0 ≤ pyNormIdx len i ∧ pyNormIdx len i < (len : Int) := by
  unfold pyNormIdx
  split <;> omega

theorem pyGetItem_ok (l : List String) (i : Int) (h1 : -1 ≤ i)
    (h2 : i < (l.length : Int)) (h3 : l ≠ []) :
    ∃ d, pyGetItem l i = .ok d ∧ d ∈ l := by
  have hlen : 1 ≤ l.length := List.length_pos.mpr h3
  have hb := pyNormIdx_bounds h1 h2 hlen
  unfold pyGetItem
  rw [dif_pos hb]
  exact ⟨_, rfl, List.get_mem _ _ _⟩

theorem searchGather_ok (docs : List String) (hd : docs ≠ []) :
    ∀ l : List Int, (∀ x ∈ l, -1 ≤ x) →
      ∃ r, ModelLoader.searchGather docs l = .ok r ∧ (∀ t ∈ r, t ∈ docs) ∧
        ((∀ x ∈ l, x < (docs.length : Int)) → r.length = l.length) := by
  intro l
  induction l with
  | nil => intro _; exact ⟨[], rfl, by simp, by simp⟩
  | cons x xs ih =>
      intro hl
      obtain ⟨r', hr', hmem', hlen'⟩ := ih (fun y hy => hl y (List.mem_cons_of_mem _ hy))
      by_cases hx : x < (docs.length : Int)
      · obtain ⟨d, hdq, hdm⟩ := pyGetItem_ok docs x (hl x (List.mem_cons_self _ _)) hx hd
        refine ⟨d :: r', ?_, ?_, ?_⟩
        · simp [ModelLoader.searchGather, hx, hdq, hr']
        · intro t ht
          rcases List.mem_cons.mp ht with h | h
          · exact h ▸ hdm
          · exact hmem' t h
        · intro hall
          simp [hlen' (fun y hy => hall y (List.mem_cons_of_mem _ hy))]
      · refine ⟨r', ?_, hmem', ?_⟩
        · simp [ModelLoader.searchGather, hx, hr']
        · intro hall
          exact absurd (hall x (List.mem_cons_self _ _)) hx

theorem faissSearch_length (vecs : List (List Int)) (q : List Int) (k : Nat) :
    (faissSearch vecs q k).length = k := by
  unfold faissSearch
  rw [List.length_append, List.length_map, List.length_take, List.length_insertionSort,
    List.length_range, List.length_replicate]
  omega

theorem faissSearch_lb (vecs : List (List Int)) (q : List Int) (k : Nat) :
    ∀ x ∈ faissSearch vecs q k, -1 ≤ x := by
  intro x hx
  unfold faissSearch at hx
  rcases List.mem_append.mp hx with h | h
  · obtain ⟨i, _, rfl⟩ := List.mem_map.mp h
    exact le_trans (by decide) (Int.ofNat_nonneg i)
  · rw [List.eq_of_mem_replicate h]

theorem faissSearch_lt (vecs : List (List Int)) (q : List Int) (k : Nat) :
    ∀ x ∈ faissSearch vecs q k, x < (vecs.length : Int) := by
  intro x hx
  unfold faissSearch at hx
  rcases List.mem_append.mp hx with h | h
  · obtain ⟨i, hi, rfl⟩ := List.mem_map.mp h
    have hmem : i ∈ List.range vecs.length :=
      (List.mem_insertionSort _).mp ((List.take_sublist _ _).subset hi)
    have hlt := List.mem_range.mp hmem
    rw [Int.ofNat_eq_natCast]
    exact_mod_cast hlt
  · rw [List.eq_of_mem_replicate h]
    have h0 : (0 : Int) ≤ (vecs.length : Int) := Int.natCast_nonneg _
    omega

theorem uniNewlines_cons_of_ne (c : Char) (rest : List Char) (hc : c ≠ '\r') :
    uniNewlines (c :: rest) = c :: uniNewlines rest := by
  cases rest with
  | nil => simp [uniNewlines, hc]
  | cons d rest2 => simp [uniNewlines, hc]

theorem uniNewlines_eq_self (s : List Char) (h : '\r' ∉ s) : uniNewlines s = s := by
  induction s with
  | nil => rfl
  | cons c rest ih =>
      have hc : c ≠ '\r' := fun he => h (he ▸ List.mem_cons_self c rest)
      rw [uniNewlines_cons_of_ne c rest hc, ih (fun hm => h (List.mem_cons_of_mem _ hm))]

theorem replaceNL_no_cr (s : List Char) (h : '\r' ∉ s) : '\r' ∉ replaceNL s := by
  intro hm
  obtain ⟨c, hcm, hc⟩ := List.mem_map.mp hm
  by_cases h' : c = '\n'
  · rw [if_pos h'] at hc
    exact absurd hc (by decide)
  · rw [if_neg h'] at hc
    exact h (hc ▸ hcm)

theorem formatDocs_no_cr (docs : List String) (h : ∀ d ∈ docs, '\r' ∉ d.data) :
    '\r' ∉ RAGService.formatDocs docs := by
  intro hm
  unfold RAGService.formatDocs at hm
  obtain ⟨l, hl, hml⟩ := List.mem_flatten.mp hm
  obtain ⟨d, hd, rfl⟩ := List.mem_map.mp hl
  rcases List.mem_append.mp hml with h1 | h1
  · exact replaceNL_no_cr d.data (h d hd) h1
  · rw [List.mem_singleton] at h1
    exact absurd h1 (by decide)

theorem replaceNL_not_mem (s : List Char) : '\n' ∉ replaceNL s := by
  intro h
  obtain ⟨c, _, hc⟩ := List.mem_map.mp h
  by_cases h' : c = '\n'
  · rw [if_pos h'] at hc
    exact absurd hc (by decide)
  · rw [if_neg h'] at hc
    exact h' hc

theorem splitLinesGo_append (rest : List Char) :
    ∀ (r acc : List Char), '\n' ∉ r →
      splitLinesGo acc (r ++ '\n' :: rest) = (acc.reverse ++ r) :: splitLinesGo [] rest := by
  intro r
  induction r with
  | nil =>
      intro acc _
      simp [splitLinesGo]
  | cons c cs ih =>
      intro acc hr
      have hc : c ≠ '\n' := fun h => hr (h ▸ List.mem_cons_self c cs)
      have hcs : '\n' ∉ cs := fun h => hr (List.mem_cons_of_mem _ h)
      show splitLinesGo acc (c :: (cs ++ '\n' :: rest)) = _
      rw [show splitLinesGo acc (c :: (cs ++ '\n' :: rest)) =
        splitLinesGo (c :: acc) (cs ++ '\n' :: rest) from by simp [splitLinesGo, hc]]
      rw [ih (c :: acc) hcs]
      simp

theorem splitLinesGo_formatDocs (docs : List String) :
    splitLinesGo [] (RAGService.formatDocs docs) = docs.map (fun d => replaceNL d.data) := by
  induction docs with
  | nil => rfl
  | cons d ds ih =>
      show splitLinesGo [] ((replaceNL d.data ++ ['\n']) ++ RAGService.formatDocs ds) =
        replaceNL d.data :: ds.map (fun d => replaceNL d.data)
      rw [List.append_assoc, List.singleton_append,
        splitLinesGo_append (RAGService.formatDocs ds) (replaceNL d.data) []
          (replaceNL_not_mem d.data)]
      simpa using ih

theorem splitLines_formatDocs (docs : List String) (hcr : ∀ d ∈ docs, '\r' ∉ d.data) :
    splitLines (RAGService.formatDocs docs) = docs.map (fun d => replaceNL d.data) := by
  unfold splitLines
  rw [uniNewlines_eq_self _ (formatDocs_no_cr docs hcr)]
  exact splitLinesGo_formatDocs docs

theorem parseDocs_formatDocs (docs : List String) (hcr : ∀ d ∈ docs, '\r' ∉ d.data) :
    RAGService.parseDocs (RAGService.formatDocs docs) =
      docs.map (fun d => String.mk (pyStrip (replaceNL d.data))) := by
  unfold RAGService.parseDocs
  rw [splitLines_formatDocs docs hcr, List.map_map]
  rfl

/-! ## Claim theorems -/

/-- C3 counterexample: at `t = "abcde"`, `s = 3`, `o = 1` the claimed window
sequence (offsets `0, 2, 4`, consecutive chunks sharing one character) is
`["abc", "cde", "e"]`, but `chunk_text` advances by
`max(end - overlap, end) = end` and yields `["abc", "de"]` — consecutive
chunks share no characters. -/
theorem c3_chunk_counterexample :
    chunk_text "abcde" 3 1 = ["abc", "de"] ∧
    chunkSpec "abcde" 3 1 = ["abc", "cde", "e"] ∧
    chunk_text "abcde" 3 1 ≠ chunkSpec "abcde" 3 1 := by
  refine ⟨by decide, by decide, by decide⟩

/-- C3 (amended): for every chunk size `s > 0` and every overlap argument,
`chunk_text` produces the spec's window sequence with an *effective overlap
of 0*: windows start at offsets `0, s, 2*s, ...` and consecutive chunks
share no characters; the `overlap` argument has no effect. -/
theorem c3_chunk_no_overlap (t : String) (s o : Nat) (hs : 0 < s) :
    chunk_text t s o = chunkSpec t s 0 := by
  unfold chunk_text chunkSpec
  rw [Nat.sub_zero, chunkTextGo_eq_spec]

/-- Witness for `c3_chunk_no_overlap` at `t = "abcdefg"`, `s = 3`, `o = 2`. -/
theorem c3_chunk_no_overlap_witness :
    0 < 3 ∧ chunk_text "abcdefg" 3 2 = chunkSpec "abcdefg" 3 0 :=
  ⟨by decide, c3_chunk_no_overlap "abcdefg" 3 2 (by decide)⟩

/-- C5 counterexample: in a state with three aligned documents and an echo
LLM (the generated answer is the prompt itself), a caller passing
`top_k = 1` still gets an answer whose context holds all three chunks —
the search ran with the default of 3, not with the caller's 1, which the
spec-faithful pipeline `querySpec` would have used. -/
theorem c5_topk_counterexample :
    RAGService.query stC5cex "q" 1 256 =
      .ok (ModelLoader.buildPrompt "a\nb\nc" "q") ∧
    RAGService.querySpec stC5cex "q" 1 256 =
      .ok (ModelLoader.buildPrompt "a" "q") ∧
    ModelLoader.buildPrompt "a\nb\nc" "q" ≠ ModelLoader.buildPrompt "a" "q" := by
  refine ⟨rfl, rfl, by decide⟩

/-- C5 (amended): `RAGService.query` ignores its `top_k` argument entirely:
any two values give the same result, which is `ModelLoader.answer_from_rag`'s
answer, and that always requests `searchDefaultTopK = 3` neighbours. -/
theorem c5_topk_ignored (st : RAGState) (question : String) (k1 k2 maxTokens : Nat) :
    RAGService.query st question k1 maxTokens = RAGService.query st question k2 maxTokens ∧
    RAGService.query st question k1 maxTokens =
      ModelLoader.answer_from_rag st question maxTokens ∧
    ModelLoader.searchDefaultTopK = 3 :=
  ⟨rfl, rfl, rfl⟩

/-- C6 counterexample: with retrieved chunks `["a", "b", "c"]` the assembled
prompt holds the context block `"a\nb\nc"` (single-newline separators); the
blank-line join the claim describes would give a different prompt. -/
theorem c6_prompt_counterexample :
    ModelLoader.search stC6cex "q" ModelLoader.searchDefaultTopK = .ok ["a", "b", "c"] ∧
    ModelLoader.answer_from_rag stC6cex "q" 256 =
      .ok (ModelLoader.buildPrompt (String.intercalate "\n" ["a", "b", "c"]) "q") ∧
    ModelLoader.buildPrompt (String.intercalate "\n" ["a", "b", "c"]) "q" ≠
      ModelLoader.buildPrompt (String.intercalate "\n\n" ["a", "b", "c"]) "q" := by
  refine ⟨rfl, rfl, by decide⟩

/-- C6 (amended): the prompt assembled by `answer_from_rag` joins the
retrieved texts with *single-newline* separators (not blank lines) into the
context block, and has the fixed template form
instructions + context + question + answer-cue. -/
theorem c6_prompt_template (st : RAGState) (q : String) (mt : Nat) (chunks : List String)
    (h : ModelLoader.search st q ModelLoader.searchDefaultTopK = .ok chunks) :
    ModelLoader.answer_from_rag st q mt =
      .ok (ModelLoader.chat st
        ("You are a helpful assistant using retrieved context.\n\n" ++
          "CONTEXT:\n" ++ String.intercalate "\n" chunks ++ "\n\n" ++
          "QUESTION: " ++ q ++ "\n\n" ++
          "ANSWER:") mt) := by
  unfold ModelLoader.answer_from_rag
  rw [h]
  rfl

/-- Witness for `c6_prompt_template`: a state with no index retrieves `[]`. -/
theorem c6_prompt_template_witness :
    ModelLoader.search stC6w "q" ModelLoader.searchDefaultTopK = .ok [] ∧
    ModelLoader.answer_from_rag stC6w "q" 7 =
      .ok (ModelLoader.chat stC6w
        ("You are a helpful assistant using retrieved context.\n\n" ++
          "CONTEXT:\n" ++ String.intercalate "\n" ([] : List String) ++ "\n\n" ++
          "QUESTION: " ++ "q" ++ "\n\n" ++
          "ANSWER:") 7) :=
  ⟨rfl, c6_prompt_template stC6w "q" 7 [] rfl⟩

/-- C7: when the vector index is absent (`self.index is None`, which is the
claim's own gloss of "empty or absent" — `if not self.index` is true exactly
for `None`, a present FAISS index object being always truthy), `query` never
raises from the retrieval path and returns the generation of a prompt whose
context block is empty. -/
theorem c7_no_index_degrades (st : RAGState) (q : String) (k mt : Nat)
    (h : st.index = none) :
    RAGService.query st q k mt =
      .ok (ModelLoader.chat st (ModelLoader.buildPrompt "" q) mt) := by
  unfold RAGService.query ModelLoader.answer_from_rag ModelLoader.search
  rw [h]
  rfl

/-- Witness for `c7_no_index_degrades` on a state with no backends at all. -/
theorem c7_no_index_degrades_witness :
    stC7w.index = none ∧
    RAGService.query stC7w "q" 3 256 =
      .ok (ModelLoader.chat stC7w (ModelLoader.buildPrompt "" "q") 256) :=
  ⟨rfl, c7_no_index_degrades stC7w "q" 3 256 rfl⟩

/-- C10: ingesting an empty list of texts is a complete no-op on every state:
it returns without raising and leaves the document store, the vector index
and both persisted files untouched — even when no embedding backend is
configured (the `if not texts: return` guard fires before anything else). -/
theorem c10_ingest_empty_noop (st : RAGState) :
    RAGService.ingest_documents st [] = .ok st := rfl

/-- C1: every successful `ingest_documents` keeps the document store length
equal to the index size `ntotal`, grows both by exactly the number of texts
ingested, and extends the two collections in lockstep — the store becomes
`old ++ texts` while the index becomes `old ++ texts.map E`, so store slot
`i` keeps pairing with vector slot `i`. -/
theorem c1_ingest_alignment (st : RAGState) (texts : List String)
    (E : String → List Int) (hE : st.embedder = some E)
    (hal : st.documents.length = ntotal st) :
    ∃ st', RAGService.ingest_documents st texts = .ok st' ∧
      st'.documents.length = ntotal st' ∧
      st'.documents.length = st.documents.length + texts.length ∧
      ntotal st' = ntotal st + texts.length ∧
      st'.documents = st.documents ++ texts ∧
      st'.index.getD [] = st.index.getD [] ++ texts.map E := by
  cases texts with
  | nil =>
      exact ⟨st, rfl, hal, by simp, by simp, by simp, by simp⟩
  | cons t ts =>
      refine ⟨{ st with
          documents := st.documents ++ t :: ts,
          index := some (st.index.getD [] ++ (t :: ts).map E),
          savedIndex := some (st.index.getD [] ++ (t :: ts).map E),
          savedDocs := some (RAGService.formatDocs (st.documents ++ t :: ts)) },
        ?_, ?_, ?_, ?_, rfl, ?_⟩
      · simp [RAGService.ingest_documents, RAGService.save_index, hE]
      · simp only [ntotal] at hal ⊢
        simp [hal]
      · simp
      · simp [ntotal]
      · simp

/-- Witness for `c1_ingest_alignment`: a fresh service with an embedder
ingesting two texts. -/
theorem c1_ingest_alignment_witness :
    stC1w.embedder = some (fun _ => [7]) ∧ stC1w.documents.length = ntotal stC1w ∧
    (∃ st', RAGService.ingest_documents stC1w ["t1", "t2"] = .ok st' ∧
      st'.documents.length = ntotal st' ∧
      st'.documents.length = stC1w.documents.length + (["t1", "t2"] : List String).length ∧
      ntotal st' = ntotal stC1w + (["t1", "t2"] : List String).length ∧
      st'.documents = stC1w.documents ++ ["t1", "t2"] ∧
      st'.index.getD [] = stC1w.index.getD [] ++ (["t1", "t2"] : List String).map (fun _ => [7])) :=
  ⟨rfl, rfl, c1_ingest_alignment stC1w ["t1", "t2"] (fun _ => [7]) rfl rfl⟩

/-- C2 counterexample: on an index of `n = 1` vector with the single aligned
document `"a"`, searching with `k = 2` returns two texts, not at most one:
FAISS pads the missing neighbour with `-1`, the guard `idx < len(documents)`
lets `-1` through, and Python's negative indexing maps it to the last
stored document. -/
theorem c2_search_counterexample :
    ntotal stC2cex = 1 ∧
    ModelLoader.search stC2cex "q" 2 = .ok ["a", "a"] ∧
    ¬ ((2 : Nat) ≤ 1) :=
  ⟨rfl, rfl, by decide⟩

/-- C2 (amended): on an aligned non-empty store, `search` never raises but
returns *exactly* `k` chunk texts for every `k` (for `k > n` the `-1`
padding resolves to the last stored document instead of being skipped);
every returned text is drawn from the document store. -/
theorem c2_search_returns_k (st : RAGState) (q : String) (k : Nat)
    (E : String → List Int) (vecs : List (List Int))
    (hE : st.embedder = some E) (hI : st.index = some vecs)
    (hal : st.documents.length = vecs.length) (hne : st.documents ≠ []) :
    ∃ r, ModelLoader.search st q k = .ok r ∧ r.length = k ∧ ∀ t ∈ r, t ∈ st.documents := by
  obtain ⟨r, hr, hmem, hlen⟩ :=
    searchGather_ok st.documents hne (faissSearch vecs (E q) k) (faissSearch_lb vecs (E q) k)
  have hall : ∀ x ∈ faissSearch vecs (E q) k, x < (st.documents.length : Int) := by
    intro x hx
    rw [hal]
    exact faissSearch_lt vecs (E q) k x hx
  refine ⟨r, ?_, ?_, hmem⟩
  · unfold ModelLoader.search ModelLoader.embed
    rw [hI, hE]
    simpa using hr
  · rw [hlen hall, faissSearch_length]

/-- Witness for `c2_search_returns_k`: two aligned documents, `k = 5`. -/
theorem c2_search_returns_k_witness :
    stC2w.embedder = some (fun _ => [5]) ∧ stC2w.index = some [[0], [1]] ∧
    stC2w.documents.length = ([[0], [1]] : List (List Int)).length ∧ stC2w.documents ≠ [] ∧
    (∃ r, ModelLoader.search stC2w "q" 5 = .ok r ∧ r.length = 5 ∧
      ∀ t ∈ r, t ∈ stC2w.documents) :=
  ⟨rfl, rfl, rfl, by decide,
    c2_search_returns_k stC2w "q" 5 (fun _ => [5]) [[0], [1]] rfl rfl rfl (by decide)⟩

/-- C4 counterexample: the persist-then-load round trip is not the identity
on the document store. A stored text with an embedded newline is written
with the newline replaced by a space and stripped on reload, so `"a\nb"`
comes back as `"a b"`; and a stored text with an embedded carriage return
is split in two on reload (universal-newlines reading treats `'\r'` as a
line terminator the save format never escapes), so `"x\ry"` comes back as
the *two* texts `["x", "y"]`, changing the store's length. -/
theorem c4_roundtrip_counterexample :
    stC4cex.documents = ["a\nb"] ∧
    (RAGService.load_index (RAGService.save_index stC4cex)).documents = ["a b"] ∧
    (["a b"] : List String) ≠ ["a\nb"] ∧
    stC4cr.documents = ["x\ry"] ∧
    (RAGService.load_index (RAGService.save_index stC4cr)).documents = ["x", "y"] ∧
    (["x", "y"] : List String) ≠ ["x\ry"] :=
  ⟨rfl, rfl, by decide, rfl, rfl, by decide⟩

/-- C4 (amended): with an index present, persist-then-load restores the
vector index exactly. Provided no stored text contains a carriage return
(a text with one is split into several store entries on reload, because
universal-newlines reading also ends lines at `'\r'` — see the
counterexample), each text is restored up to the save format's lossy
normalisation — newlines replaced by spaces, then Python `strip()` — and
the round trip is the identity on the document store precisely when every
stored text is fixed by that normalisation (no embedded newline, no
leading or trailing Python whitespace). -/
theorem c4_roundtrip_normalised (st : RAGState) (vecs : List (List Int))
    (hI : st.index = some vecs) (hcr : ∀ d ∈ st.documents, '\r' ∉ d.data) :
    (RAGService.load_index (RAGService.save_index st)).index = st.index ∧
    (RAGService.load_index (RAGService.save_index st)).documents =
      st.documents.map (fun d => String.mk (pyStrip (replaceNL d.data))) ∧
    ((∀ d ∈ st.documents, pyStrip (replaceNL d.data) = d.data) →
      (RAGService.load_index (RAGService.save_index st)).documents = st.documents) := by
  have h2 : RAGService.load_index (RAGService.save_index st) =
      { st with
          index := some vecs,
          savedIndex := some vecs,
          savedDocs := some (RAGService.formatDocs st.documents),
          documents := RAGService.parseDocs (RAGService.formatDocs st.documents) } := by
    unfold RAGService.save_index RAGService.load_index
    rw [hI]
    rfl
  rw [h2]
  refine ⟨hI.symm, parseDocs_formatDocs st.documents hcr, ?_⟩
  intro hfix
  have hfix' : ∀ d ∈ st.documents, String.mk (pyStrip (replaceNL d.data)) = d := by
    intro d hd
    rw [hfix d hd]
  show RAGService.parseDocs (RAGService.formatDocs st.documents) = st.documents
  rw [parseDocs_formatDocs st.documents hcr, List.map_congr_left hfix', List.map_id']

/-- Witness for `c4_roundtrip_normalised` on a store whose texts hold no
carriage return, no newline and no edge whitespace. -/
theorem c4_roundtrip_normalised_witness :
    stC4w.index = some [[0]] ∧ (∀ d ∈ stC4w.documents, '\r' ∉ d.data) ∧
    ((RAGService.load_index (RAGService.save_index stC4w)).index = stC4w.index ∧
     (RAGService.load_index (RAGService.save_index stC4w)).documents =
       stC4w.documents.map (fun d => String.mk (pyStrip (replaceNL d.data))) ∧
     ((∀ d ∈ stC4w.documents, pyStrip (replaceNL d.data) = d.data) →
       (RAGService.load_index (RAGService.save_index stC4w)).documents = stC4w.documents)) :=
  ⟨rfl, by decide, c4_roundtrip_normalised stC4w [[0]] rfl (by decide)⟩

/-- C8 counterexample: with a present index but no embedding backend,
`query` does not degrade to a placeholder — it raises
`RuntimeError("Embedding model missing.")` from `ModelLoader.embed`. -/
theorem c8_backend_counterexample :
    stC8cex.embedder = none ∧ stC8cex.index = some [[0]] ∧
    RAGService.query stC8cex "q" 3 256 = .error "Embedding model missing." :=
  ⟨rfl, rfl, rfl⟩

/-- C8 (amended): `query` degrades without raising when the index is absent,
or when an embedding backend is present and the store is non-empty; in
those cases a missing generation backend yields the placeholder string
rather than an exception. (With the embedder missing and an index present,
`query` raises instead — see the counterexample.) -/
theorem c8_degradation_boundary (st : RAGState) (q : String) (k mt : Nat)
    (h : st.index = none ∨ ((∃ E, st.embedder = some E) ∧ st.documents ≠ [])) :
    (∃ s, RAGService.query st q k mt = .ok s) ∧
    (st.llm = none → RAGService.query st q k mt = .ok ModelLoader.llmMissingMsg) := by
  have key : ∃ chunks, ModelLoader.search st q ModelLoader.searchDefaultTopK = .ok chunks := by
    rcases h with h | ⟨⟨E, hE⟩, hne⟩
    · exact ⟨[], by unfold ModelLoader.search; rw [h]; rfl⟩
    · cases hidx : st.index with
      | none => exact ⟨[], by unfold ModelLoader.search; rw [hidx]; rfl⟩
      | some vecs =>
          obtain ⟨r, hr, -, -⟩ := searchGather_ok st.documents hne
            (faissSearch vecs (E q) ModelLoader.searchDefaultTopK)
            (faissSearch_lb vecs (E q) ModelLoader.searchDefaultTopK)
          refine ⟨r, ?_⟩
          unfold ModelLoader.search ModelLoader.embed
          rw [hidx, hE]
          simpa using hr
  obtain ⟨chunks, hs⟩ := key
  constructor
  · refine ⟨ModelLoader.chat st
      (ModelLoader.buildPrompt (String.intercalate "\n" chunks) q) mt, ?_⟩
    unfold RAGService.query ModelLoader.answer_from_rag
    rw [hs]
  · intro hl
    unfold RAGService.query ModelLoader.answer_from_rag ModelLoader.chat
    rw [hs, hl]

/-- Witness for `c8_degradation_boundary`: embedder and index present, LLM
absent — the placeholder comes back. -/
theorem c8_degradation_boundary_witness :
    (stC8w.index = none ∨ ((∃ E, stC8w.embedder = some E) ∧ stC8w.documents ≠ [])) ∧
    ((∃ s, RAGService.query stC8w "q" 3 256 = .ok s) ∧
     (stC8w.llm = none → RAGService.query stC8w "q" 3 256 = .ok ModelLoader.llmMissingMsg)) :=
  ⟨Or.inr ⟨⟨fun _ => [0], rfl⟩, by decide⟩,
   c8_degradation_boundary stC8w "q" 3 256 (Or.inr ⟨⟨fun _ => [0], rfl⟩, by decide⟩)⟩

/-- C9: with no embedding backend configured and a non-empty list of texts,
`ingest_documents` raises `RuntimeError("Embedding model not loaded.")`, but
only after `self.documents` has already been extended: on this error path
the document store grows by the texts while the index and the persisted
files are untouched, breaking the store/index lockstep. -/
theorem c9_ingest_mutates_on_error (st : RAGState) (texts : List String)
    (hE : st.embedder = none) (ht : texts ≠ []) :
    RAGService.ingest_documents st texts =
      .error ("Embedding model not loaded.",
        { st with documents := st.documents ++ texts }) ∧
    ({ st with documents := st.documents ++ texts } : RAGState).documents.length =
      st.documents.length + texts.length ∧
    ({ st with documents := st.documents ++ texts } : RAGState).index = st.index ∧
    ({ st with documents := st.documents ++ texts } : RAGState).savedIndex = st.savedIndex ∧
    ({ st with documents := st.documents ++ texts } : RAGState).savedDocs = st.savedDocs := by
  refine ⟨?_, by simp, rfl, rfl, rfl⟩
  cases texts with
  | nil => exact absurd rfl ht
  | cons t ts => simp [RAGService.ingest_documents, hE]

/-- Witness for `c9_ingest_mutates_on_error`: ingesting one text with no
embedder on a populated service. -/
theorem c9_ingest_mutates_on_error_witness :
    stC9w.embedder = none ∧ (["b"] : List String) ≠ [] ∧
    (RAGService.ingest_documents stC9w ["b"] =
      .error ("Embedding model not loaded.",
        { stC9w with documents := stC9w.documents ++ ["b"] }) ∧
    ({ stC9w with documents := stC9w.documents ++ ["b"] } : RAGState).documents.length =
      stC9w.documents.length + (["b"] : List String).length ∧
    ({ stC9w with documents := stC9w.documents ++ ["b"] } : RAGState).index = stC9w.index ∧
    ({ stC9w with documents := stC9w.documents ++ ["b"] } : RAGState).savedIndex =
      stC9w.savedIndex ∧
    ({ stC9w with documents := stC9w.documents ++ ["b"] } : RAGState).savedDocs =
      stC9w.savedDocs) :=
  ⟨rfl, by decide, c9_ingest_mutates_on_error stC9w ["b"] rfl (by decide)⟩

end MultiDocChat
